import Mathlib

/-!
# Verification of the Mental_Health preprocessing pipeline

Shallow embedding of the preprocessing pipeline of the Mental_Health
repository (`notebooks/Preprocessing.ipynb` plus the `preprocess` module it
imports).  Tabular data is modelled as frames of rows; a row is an
association list from column names to cells, a cell is a rational number, a
string, or missing (pandas `NaN`).  Components whose source file
(`src/preprocess.py`) is not part of the repository are modelled from the
specification and carry a `Modelled from the spec:` doc comment.
-/

set_option autoImplicit false

namespace MentalHealth

/-- A cell of a tabular dataset: a numeric value (rationals stand for the
floating-point numbers of the source), a string, or a missing value (`NaN`). -/
inductive Cell where
  | num (q : ℚ)
  | str (s : String)
  | missing
deriving DecidableEq

/-- A row: an association list from column names to cells, in column order. -/
abbrev Row := List (String × Cell)

/-- First-match association-list lookup. -/
def alookup {α β : Type} [DecidableEq α] (a : α) : List (α × β) → Option β
  | [] => none
  | (k, v) :: t => if k = a then some v else alookup a t

/-- Reading a column of a row; an absent column reads as missing (`NaN`). -/
def Row.get (r : Row) (c : String) : Cell :=
  (alookup c r).getD Cell.missing

/-- Writing a column of a row: replace the first binding of the column, or
append the column at the end when it is absent (pandas `df[c] = v`). -/
def Row.set : Row → String → Cell → Row
  | [], c, v => [(c, v)]
  | (k, w) :: t, c, v => if k = c then (c, v) :: t else (k, w) :: Row.set t c v

/-- Removing a set of columns from a row. -/
def Row.dropKeys (r : Row) (dc : List String) : Row :=
  r.filter (fun p => decide (p.1 ∉ dc))

/-- A dataset: a column schema and a list of rows (a pandas `DataFrame`). -/
structure Frame where
  cols : List String
  rows : List Row
deriving DecidableEq

/-- Column assignment on a frame (pandas `df[c] = f(row)`): every row gets
the new cell, and the column is appended to the schema when absent. -/
def setCol (f : Frame) (c : String) (g : Row → Cell) : Frame :=
  { cols := if c ∈ f.cols then f.cols else f.cols ++ [c]
    rows := f.rows.map (fun r => r.set c (g r)) }

/-- Insert into a sorted list of rationals. -/
def insertSorted (x : ℚ) : List ℚ → List ℚ
  | [] => [x]
  | y :: ys => if x ≤ y then x :: y :: ys else y :: insertSorted x ys

/-- Insertion sort on rationals. -/
def sortQ : List ℚ → List ℚ
  | [] => []
  | x :: xs => insertSorted x (sortQ xs)

/-- Median of a list of rationals: middle element of the sorted list, or the
mean of the two middle elements for even length; `none` on the empty list
(pandas: the median of an all-`NaN` series is `NaN`). -/
def median (l : List ℚ) : Option ℚ :=
  let s := sortQ l
  let n := s.length
  if n = 0 then none
  else if n % 2 = 1 then s.get? (n / 2)
  else
    match s.get? (n / 2 - 1), s.get? (n / 2) with
    | some a, some b => some ((a + b) / 2)
    | _, _ => none

/-- The respondent-status column, grouping key of the imputer
(`notebooks/Preprocessing.ipynb`). -/
def statusCol : String := "Working Professional or Student"

/-- The columns handed to `GroupImputer` in the notebook's pipeline. -/
def imputeCols : List String := ["Pressure", "Satisfaction", "Financial Stress"]

/-- The notebook's `drop_cols` list: identifiers and raw columns superseded
by engineered features. -/
def drop_cols : List String :=
  ["Name", "City", "Profession",
   "Academic Pressure", "Work Pressure",
   "Study Satisfaction", "Job Satisfaction",
   "Degree"]

/-- The notebook's `categorical_cols` list, one-hot encoded columns. -/
def categorical_cols : List String :=
  ["Gender",
   "Working Professional or Student",
   "Sleep Duration",
   "Dietary Habits",
   "Have you ever had suicidal thoughts ?",
   "Family History of Mental Illness"]

/-- The numeric (non-missing) values of column `c` over a list of rows. -/
def colNums (rows : List Row) (c : String) : List ℚ :=
  rows.filterMap (fun r => match r.get c with
    | Cell.num q => some q
    | _ => none)

/-- The rows of a frame belonging to respondent-status group `g`. -/
def groupRows (f : Frame) (g : Cell) : List Row :=
  f.rows.filter (fun r => decide (r.get statusCol = g))

/-- The distinct respondent-status group values of a frame, in order of
first appearance. -/
def groupKeys (f : Frame) : List Cell :=
  (f.rows.map (fun r => r.get statusCol)).dedup

/-- Modelled from the spec: the learned state of `GroupImputer`
(`src/preprocess.py` is imported by the notebook but absent from the
repository): per-group medians for every configured column, plus the
column-wide fallback medians (spec §4.3). -/
structure GroupImputerState where
  cols : List String
  stats : List (Cell × List (String × Option ℚ))
  fallback : List (String × Option ℚ)
deriving DecidableEq

namespace GroupImputer

/-- Modelled from the spec: `GroupImputer.fit` (spec §4.3) — for each
group observed in the status column and each configured column, the median
of the non-missing values within the group, plus a column-wide fallback
median over all rows. -/
def fitState (cols : List String) (f : Frame) : GroupImputerState :=
  { cols := cols
    stats := (groupKeys f).map
      (fun g => (g, cols.map (fun c => (c, median (colNums (groupRows f g) c)))))
    fallback := cols.map (fun c => (c, median (colNums f.rows c))) }

/-- The learned replacement value for group `g` and column `c`: the group's
own median when the group was seen at fit time and had valid values,
otherwise the column-wide fallback median. -/
def statFor (st : GroupImputerState) (g : Cell) (c : String) : Option ℚ :=
  match ((alookup g st.stats).bind (fun m => alookup c m)).join with
  | some q => some q
  | none => (alookup c st.fallback).join

/-- One imputation step: fill column `c` of the row when it is missing and a
replacement value is available. -/
def imputeStep (st : GroupImputerState) (g : Cell) (acc : Row) (c : String) : Row :=
  match acc.get c with
  | Cell.missing =>
      match statFor st g c with
      | some q => acc.set c (Cell.num q)
      | none => acc
  | _ => acc

/-- Modelled from the spec: the per-row apply phase of `GroupImputer` —
each configured column of the row is filled, when missing, with the learned
statistic of the row's status group. -/
def imputeRow (st : GroupImputerState) (r : Row) : Row :=
  st.cols.foldl (imputeStep st (r.get statusCol)) r

/-- Modelled from the spec: `GroupImputer.apply` on a fitted state — fills
the configured columns of every row; the schema is unchanged. -/
def applyState (st : GroupImputerState) (f : Frame) : Frame :=
  { cols := f.cols, rows := f.rows.map (imputeRow st) }

end GroupImputer

/-- Modelled from the spec: canonical dietary-habit vocabulary (§4.1);
`replace_diet_habits` lives in the absent `src/preprocess.py`. -/
def dietTable : List (String × String) :=
  [("Healthy", "Healthy"), ("Moderate", "Moderate"), ("Unhealthy", "Unhealthy")]

/-- Modelled from the spec: canonical sleep-duration vocabulary (§4.1). -/
def sleepTable : List (String × String) :=
  [("Less than 5 hours", "Less than 5 hours"), ("5-6 hours", "5-6 hours"),
   ("7-8 hours", "7-8 hours"), ("More than 8 hours", "More than 8 hours")]

/-- Map a string cell through a lookup table, with an explicit bucket for
values not found; non-string cells pass through (spec §4.1: total over
arbitrary string input, unknown values map to an "Other" bucket). -/
def normalizeCell (table : List (String × String)) (other : String) : Cell → Cell
  | Cell.str s => Cell.str ((alookup s table).getD other)
  | c => c

/-- Modelled from the spec: `replace_diet_habits`, collapsing the
"Dietary Habits" column into the canonical vocabulary. -/
def replace_diet_habits (f : Frame) : Frame :=
  setCol f "Dietary Habits" (fun r => normalizeCell dietTable "Other" (r.get "Dietary Habits"))

/-- Modelled from the spec: `replace_sleep_duration`, collapsing the
"Sleep Duration" column into the canonical vocabulary. -/
def replace_sleep_duration (f : Frame) : Frame :=
  setCol f "Sleep Duration" (fun r => normalizeCell sleepTable "Other" (r.get "Sleep Duration"))

/-- Modelled from the spec: coalesce two mutually-exclusive status-specific
source columns (spec §4.2) — take the non-missing one; when both are
present, the column matching the row's status wins; when both are missing,
stay missing. -/
def pickCell (r : Row) (studentSrc profSrc : String) : Cell :=
  match r.get studentSrc, r.get profSrc with
  | Cell.missing, Cell.missing => Cell.missing
  | Cell.missing, v => v
  | v, Cell.missing => v
  | va, vb => if r.get statusCol = Cell.str "Student" then va else vb

/-- Modelled from the spec: `assign_pressure` — creates the unified
"Pressure" column from "Academic Pressure" / "Work Pressure". -/
def assign_pressure (f : Frame) : Frame :=
  setCol f "Pressure" (fun r => pickCell r "Academic Pressure" "Work Pressure")

/-- Modelled from the spec: `assign_satisfaction` — creates the unified
"Satisfaction" column from "Study Satisfaction" / "Job Satisfaction". -/
def assign_satisfaction (f : Frame) : Frame :=
  setCol f "Satisfaction" (fun r => pickCell r "Study Satisfaction" "Job Satisfaction")

/-- Name of the engineered ratio column. -/
def ratioCol : String := "Pressure_Satisfaction_Ratio"

/-- Modelled from the spec: the per-row ratio `Pressure / Satisfaction`,
with sentinel value 0 when `Satisfaction = 0` (spec §4.2: "the ratio is
defined as a sentinel (e.g. 0 ...) rather than raising"). -/
def ratioCell (r : Row) : Cell :=
  match r.get "Pressure", r.get "Satisfaction" with
  | Cell.num p, Cell.num s => Cell.num (if s = 0 then 0 else p / s)
  | _, _ => Cell.missing

/-- Modelled from the spec: `add_pressure_ratio` — appends the engineered
ratio column. -/
def add_pressure_ratio (f : Frame) : Frame :=
  setCol f ratioCol ratioCell

/-- The notebook's step `("drop_cols", FunctionTransformer(lambda X: X.drop(columns = drop_cols)))`:
pandas `DataFrame.drop` removes the listed columns and, with its default
`errors="raise"`, fails with a `KeyError` when any listed column is absent. -/
def dropColumns (dc : List String) (f : Frame) : Except String Frame :=
  if ∀ c ∈ dc, c ∈ f.cols then
    Except.ok { cols := f.cols.filter (fun c => decide (c ∉ dc))
                rows := f.rows.map (fun r => r.dropKeys dc) }
  else Except.error "schema mismatch: column to drop not found"

/-- The output-column name of one learned categorical value
(scikit-learn `get_feature_names_out`: `<column>_<value>`). -/
def Cell.catName : Cell → String
  | Cell.str s => s
  | Cell.num q => toString q
  | Cell.missing => "nan"

/-- Indicator-column name for column `c` and learned value `v`. -/
def featName (c : String) (v : Cell) : String :=
  c ++ "_" ++ v.catName

/-- All indicator-column names of a learned vocabulary, column by column,
level by level. -/
def featNames (vocab : List (String × List Cell)) : List String :=
  vocab.flatMap (fun p => p.2.map (featName p.1))

/-- Distinct values of a column, in order of first appearance. -/
def colVals (f : Frame) (c : String) : List Cell :=
  (f.rows.map (fun r => r.get c)).dedup

/-- Learned state of the notebook's `categorical_transformer`
(`ColumnTransformer` wrapping `OneHotEncoder(handle_unknown="ignore")`
with `remainder="passthrough"`), modelled from scikit-learn's documented
semantics: per-column vocabulary and the fit-time passthrough columns. -/
structure EncoderState where
  vocab : List (String × List Cell)
  passCols : List String
deriving DecidableEq

/-- Fit of the categorical encoder: learn each categorical column's
vocabulary and freeze the passthrough column list. -/
def encFit (catCols : List String) (f : Frame) : EncoderState :=
  { vocab := catCols.map (fun c => (c, colVals f c))
    passCols := f.cols.filter (fun c => decide (c ∉ catCols)) }

/-- The indicator cells of one encoded column for one row: 1 exactly at the
learned value equal to the row's value, 0 elsewhere; a row value absent
from the learned vocabulary therefore produces all zeros
(`handle_unknown="ignore"`). -/
def colIndicators (r : Row) (c : String) (vs : List Cell) : List (String × Cell) :=
  vs.map (fun v => (featName c v, Cell.num (if r.get c = v then 1 else 0)))

/-- Encoding of one row: indicator cells for every learned (column, value)
pair, then the passthrough cells. -/
def encodeRow (st : EncoderState) (r : Row) : Row :=
  st.vocab.flatMap (fun p => colIndicators r p.1 p.2) ++
    st.passCols.map (fun c => (c, r.get c))

/-- Apply of the fitted categorical encoder: fixed output schema (indicator
names then passthrough names), one encoded row per input row. -/
def encApply (st : EncoderState) (f : Frame) : Frame :=
  { cols := featNames st.vocab ++ st.passCols
    rows := f.rows.map (encodeRow st) }

/-- All learned state of the fitted pipeline
(`preprocessor = Pipeline(steps=[...])`), frozen at fit time. -/
structure PipelineState where
  imputer : GroupImputerState
  encoder : EncoderState
deriving DecidableEq

/-- The notebook's pipeline steps, in source order, as named stage
functions over a fitted state. -/
def stages (st : PipelineState) : List (String × (Frame → Except String Frame)) :=
  [("pressure", fun f => Except.ok (assign_pressure f)),
   ("satisfaction", fun f => Except.ok (assign_satisfaction f)),
   ("impute", fun f => Except.ok (GroupImputer.applyState st.imputer f)),
   ("pressure_ratio", fun f => Except.ok (add_pressure_ratio f)),
   ("diet_clean", fun f => Except.ok (replace_diet_habits f)),
   ("sleep_clean", fun f => Except.ok (replace_sleep_duration f)),
   ("drop_cols", fun f => dropColumns drop_cols f),
   ("encode", fun f => Except.ok (encApply st.encoder f))]

/-- Run a list of named stages left to right, stopping at the first error. -/
def runStages : List (String × (Frame → Except String Frame)) → Frame → Except String Frame
  | [], f => Except.ok f
  | (_, g) :: rest, f =>
      match g f with
      | Except.ok f' => runStages rest f'
      | Except.error e => Except.error e

/-- `preprocessor.transform`: run every stage with the frozen state. -/
def pipelineApply (st : PipelineState) (f : Frame) : Except String Frame :=
  runStages (stages st) f

/-- The frame after the two derive stages (unified "Pressure" and
"Satisfaction" columns created). -/
def derivedFrame (f : Frame) : Frame :=
  assign_satisfaction (assign_pressure f)

/-- The imputer state the pipeline learns from training data: fit on the
derived training frame. -/
def fitImputer (f : Frame) : GroupImputerState :=
  GroupImputer.fitState imputeCols (derivedFrame f)

/-- The frame right before the drop stage: derive, impute, ratio and the
two text normalizations applied. -/
def preEncodeFrame (ist : GroupImputerState) (f : Frame) : Frame :=
  replace_sleep_duration (replace_diet_habits
    (add_pressure_ratio (GroupImputer.applyState ist (derivedFrame f))))

/-- `preprocessor.fit`: thread the training data through the stages,
fitting the imputer and the encoder on the intermediate frames, and freeze
the learned state. -/
def pipelineFit (f : Frame) : Except String PipelineState :=
  match dropColumns drop_cols (preEncodeFrame (fitImputer f) f) with
  | Except.error e => Except.error e
  | Except.ok f7 =>
      Except.ok { imputer := fitImputer f, encoder := encFit categorical_cols f7 }

/-- Repeated `transform` calls (train, validation, test) with explicit
state threading: each call receives the state left by the previous one and
hands its own state on. -/
def applySeq (st : PipelineState) : List Frame → List (Except String Frame) × PipelineState
  | [] => ([], st)
  | f :: fs =>
      let r := pipelineApply st f
      let (rs, st') := applySeq st fs
      (r :: rs, st')

/-- Modelled from the spec: the sklearn-style `GroupImputer` transformer
object of the absent `src/preprocess.py` — column configuration plus
optional learned state (`none` before `fit`, spec §4.3). -/
structure GroupImputerT where
  cols : List String
  fitted : Option GroupImputerState
deriving DecidableEq

/-- `GroupImputer(columns)`: a freshly constructed, unfitted imputer. -/
def GroupImputerT.make (cols : List String) : GroupImputerT :=
  { cols := cols, fitted := none }

/-- The transformer's fit: learn and store the group statistics. -/
def GroupImputerT.fitOn (t : GroupImputerT) (f : Frame) : GroupImputerT :=
  { cols := t.cols, fitted := some (GroupImputer.fitState t.cols f) }

/-- The transformer's apply: fails with the "uninitialized imputer" signal
when `fit` has not been called, otherwise imputes with the learned state. -/
def GroupImputerT.transform (t : GroupImputerT) (f : Frame) :
    Except String Frame :=
  match t.fitted with
  | none => Except.error "uninitialized imputer"
  | some st => Except.ok (GroupImputer.applyState st f)

/-- `y = X.pop(c)` of the notebook driver: the frame without column `c`,
together with the popped column's cells. -/
def popColumn (f : Frame) (c : String) : Frame × List Cell :=
  ({ cols := f.cols.erase c, rows := f.rows.map (fun r => r.dropKeys [c]) },
   f.rows.map (fun r => r.get c))

/-- The notebook's `all_features`: encoder feature names, then the raw
training columns that were neither dropped nor encoded, then the three
engineered columns. -/
def allFeatures (vocab : List (String × List Cell)) (trainCols : List String) :
    List String :=
  featNames vocab ++
    trainCols.filter (fun c => decide (c ∉ drop_cols) && decide (c ∉ categorical_cols)) ++
    ["Pressure", "Satisfaction", "Pressure_Satisfaction_Ratio"]

/-- Training frame for the C1 witness: three Student rows with Pressure
values 2, 3, 7 (group median 3, also the overall fallback median). -/
def w1train : Frame :=
  { cols := [statusCol, "Pressure", "Satisfaction", "Financial Stress"]
    rows :=
      [[(statusCol, Cell.str "Student"), ("Pressure", Cell.num 2),
        ("Satisfaction", Cell.num 1), ("Financial Stress", Cell.num 1)],
       [(statusCol, Cell.str "Student"), ("Pressure", Cell.num 3),
        ("Satisfaction", Cell.num 1), ("Financial Stress", Cell.num 1)],
       [(statusCol, Cell.str "Student"), ("Pressure", Cell.num 7),
        ("Satisfaction", Cell.num 1), ("Financial Stress", Cell.num 1)]] }

/-- The C1 witness row: a Student row with missing Pressure. -/
def w1row : Row :=
  [(statusCol, Cell.str "Student"), ("Pressure", Cell.missing),
   ("Satisfaction", Cell.num 1), ("Financial Stress", Cell.num 1)]

/-- Apply-time frame for the C1 witness. -/
def w1apply : Frame :=
  { cols := [statusCol, "Pressure", "Satisfaction", "Financial Stress"]
    rows := [w1row] }

/-- Frame for the C7 witness: one row with Pressure 6 / Satisfaction 3,
one row with Satisfaction 0. -/
def w7 : Frame :=
  { cols := ["Pressure", "Satisfaction"]
    rows :=
      [[("Pressure", Cell.num 6), ("Satisfaction", Cell.num 3)],
       [("Pressure", Cell.num 5), ("Satisfaction", Cell.num 0)]] }

/-- First C7 witness row. -/
def w7row0 : Row := [("Pressure", Cell.num 6), ("Satisfaction", Cell.num 3)]

/-- Second C7 witness row (zero Satisfaction). -/
def w7row1 : Row := [("Pressure", Cell.num 5), ("Satisfaction", Cell.num 0)]

/-- A frame missing the "Profession" column of `drop_cols`. -/
def w9 : Frame :=
  { cols := ["Name", "City", "Academic Pressure", "Work Pressure",
             "Study Satisfaction", "Job Satisfaction", "Degree"]
    rows := [] }

/-- A pipeline state with empty learned components, used to read off the
stage names (the names do not depend on the state). -/
def emptyPipelineState : PipelineState :=
  { imputer := { cols := [], stats := [], fallback := [] }
    encoder := { vocab := [], passCols := [] } }

/-- The stages that normalize categorical text (the ColumnNormalizer of
the spec): the diet and sleep cleanups. -/
def normalizeStepNames : List String := ["diet_clean", "sleep_clean"]

/-- The stages that derive the unified base features. -/
def deriveStepNames : List String := ["pressure", "satisfaction"]

/-- Fit data for the C4 witness: Gender takes values Male and Female. -/
def w4train : Frame :=
  { cols := ["Gender", "Age"]
    rows := [[("Gender", Cell.str "Male"), ("Age", Cell.num 1)],
             [("Gender", Cell.str "Female"), ("Age", Cell.num 2)]] }

/-- The C4 fitted encoder. -/
def w4enc : EncoderState := encFit ["Gender"] w4train

/-- The C4 apply-time row with an unseen Gender value. -/
def w4row : Row := [("Gender", Cell.str "Nonbinary"), ("Age", Cell.num 3)]

/-- The C4 apply-time frame. -/
def w4test : Frame := { cols := ["Gender", "Age"], rows := [w4row] }

/-- A raw training frame with the Depression label column, for the C10
witness. -/
def w10raw : Frame :=
  { cols := ["id", "Gender", "Depression"], rows := [] }

/-- Schema of the witness training data (all columns the pipeline needs). -/
def sampleCols : List String :=
  ["id", "Name", "Gender", "City", "Working Professional or Student",
   "Profession", "Academic Pressure", "Work Pressure", "Study Satisfaction",
   "Job Satisfaction", "Sleep Duration", "Dietary Habits", "Degree",
   "Have you ever had suicidal thoughts ?", "Financial Stress",
   "Family History of Mental Illness"]

/-- One witness training row. -/
def sampleRow (nm gender : String) (ap ss fs : Cell) : Row :=
  [("id", Cell.num 1), ("Name", Cell.str nm), ("Gender", Cell.str gender),
   ("City", Cell.str "X"), (statusCol, Cell.str "Student"),
   ("Profession", Cell.str "Student"), ("Academic Pressure", ap),
   ("Work Pressure", Cell.missing), ("Study Satisfaction", ss),
   ("Job Satisfaction", Cell.missing), ("Sleep Duration", Cell.str "7-8 hours"),
   ("Dietary Habits", Cell.str "Healthy"), ("Degree", Cell.str "BSc"),
   ("Have you ever had suicidal thoughts ?", Cell.str "No"),
   ("Financial Stress", fs),
   ("Family History of Mental Illness", Cell.str "No")]

/-- Witness training frame: four Student rows; the second has missing
Academic Pressure, Study Satisfaction and Financial Stress, the rest
carry values with odd group counts (Pressure 4, 5, 9; Satisfaction
0, 0, 0; Financial Stress 2, 3, 4). -/
def wtrain : Frame :=
  { cols := sampleCols
    rows := [sampleRow "A" "Male" (Cell.num 4) (Cell.num 0) (Cell.num 2),
             sampleRow "B" "Male" Cell.missing Cell.missing Cell.missing,
             sampleRow "C" "Female" (Cell.num 5) (Cell.num 0) (Cell.num 3),
             sampleRow "D" "Female" (Cell.num 9) (Cell.num 0) (Cell.num 4)] }

/-- Witness apply-time frame with a Gender value unseen at fit time. -/
def wtest : Frame :=
  { cols := sampleCols
    rows := [sampleRow "E" "Other" (Cell.num 4) (Cell.num 0) (Cell.num 2)] }

/-- The pipeline state fitted on the witness training frame. -/
def wstate : PipelineState :=
  (pipelineFit wtrain).toOption.getD emptyPipelineState

/-- The witness training frame transformed by the fitted pipeline. -/
def wout1 : Frame :=
  (pipelineApply wstate wtrain).toOption.getD { cols := [], rows := [] }

/-- The witness test frame transformed by the fitted pipeline. -/
def wout2 : Frame :=
  (pipelineApply wstate wtest).toOption.getD { cols := [], rows := [] }

/-- The output row of the witness pipeline run holding the originally
missing Pressure (row index 1 of the transformed training frame). -/
def w2row : Row := (wout1.rows.get? 1).getD []

/-- A training row whose pressure/satisfaction sources and Financial
Stress are all missing. -/
def cfRow : Row :=
  sampleRow "B" "Male" Cell.missing Cell.missing Cell.missing

/-- Degenerate training frame for the C2 counterexample: the single row
carries no value in any configured imputed column. -/
def cf : Frame :=
  { cols := sampleCols
    rows := [cfRow] }

/-! ## Association-list and row lemmas -/

theorem alookup_map_self {α β : Type} [DecidableEq α] (F : α → β) (l : List α)
    (a : α) :
    alookup a (l.map (fun x => (x, F x))) = if a ∈ l then some (F a) else none := by
  induction l with
  | nil => simp [alookup]
  | cons x t ih =>
    by_cases hx : x = a
    · subst hx
      simp [alookup]
    · simp [alookup, hx, ih, Ne.symm hx]

theorem alookup_append_of_ne {β : Type} (c : String) (l₁ l₂ : List (String × β))
    (h : ∀ p ∈ l₁, p.1 ≠ c) :
    alookup c (l₁ ++ l₂) = alookup c l₂ := by
  induction l₁ with
  | nil => simp
  | cons p t ih =>
    cases p with
    | mk k v =>
      have hp : k ≠ c := h (k, v) (by simp)
      simp only [List.cons_append, alookup, if_neg hp]
      exact ih (fun q hq => h q (List.mem_cons_of_mem _ hq))

theorem Row.get_set_self (r : Row) (c : String) (v : Cell) :
    (r.set c v).get c = v := by
  induction r with
  | nil => simp [Row.set, Row.get, alookup]
  | cons p t ih =>
    cases p with
    | mk k w =>
      by_cases hk : k = c
      · simp [Row.set, hk, Row.get, alookup]
      · simp [Row.set, hk, Row.get, alookup, Row.get] at ih ⊢
        simpa [Row.get, alookup] using ih

theorem Row.get_set_ne (r : Row) (c c' : String) (v : Cell) (h : c' ≠ c) :
    (r.set c v).get c' = r.get c' := by
  induction r with
  | nil => simp [Row.set, Row.get, alookup, Ne.symm h]
  | cons p t ih =>
    cases p with
    | mk k w =>
      by_cases hk : k = c
      · subst hk
        simp [Row.set, Row.get, alookup, Ne.symm h]
      · by_cases hk' : k = c'
        · simp [Row.set, hk, Row.get, alookup, hk', h]
        · simp [Row.set, hk, Row.get, alookup, hk'] at ih ⊢
          exact ih

theorem Row.get_dropKeys_of_not_mem (r : Row) (dc : List String) (c : String)
    (h : c ∉ dc) :
    (r.dropKeys dc).get c = r.get c := by
  induction r with
  | nil => simp [Row.dropKeys, Row.get]
  | cons p t ih =>
    cases p with
    | mk k w =>
      by_cases hk : k ∈ dc
      · have hkc : k ≠ c := by rintro rfl; exact h hk
        simp [Row.dropKeys, hk, Row.get, alookup, hkc] at ih ⊢
        exact ih
      · by_cases hkc : k = c
        · simp [Row.dropKeys, hk, Row.get, alookup, hkc, h]
        · simp [Row.dropKeys, hk, Row.get, alookup, hkc] at ih ⊢
          exact ih

/-! ## Median lemmas -/

theorem length_insertSorted (x : ℚ) (l : List ℚ) :
    (insertSorted x l).length = l.length + 1 := by
  induction l with
  | nil => simp [insertSorted]
  | cons y ys ih =>
    by_cases h : x ≤ y
    · simp [insertSorted, h]
    · simp [insertSorted, h, ih]

theorem length_sortQ (l : List ℚ) : (sortQ l).length = l.length := by
  induction l with
  | nil => simp [sortQ]
  | cons x xs ih => simp [sortQ, length_insertSorted, ih]

theorem median_isSome (l : List ℚ) (h : l ≠ []) : (median l).isSome := by
  have hlen : (sortQ l).length = l.length := length_sortQ l
  have hpos : 0 < l.length := List.length_pos.2 h
  unfold median
  simp only
  rw [hlen]
  have hne : l.length ≠ 0 := Nat.pos_iff_ne_zero.1 hpos
  rw [if_neg hne]
  by_cases hodd : l.length % 2 = 1
  · rw [if_pos hodd]
    have hlt : l.length / 2 < (sortQ l).length := by
      rw [hlen]; exact Nat.div_lt_self hpos (by norm_num)
    rw [List.get?_eq_get hlt]
    simp
  · rw [if_neg hodd]
    have h2 : 2 ≤ l.length := by omega
    have hlt1 : l.length / 2 - 1 < (sortQ l).length := by
      rw [hlen]; omega
    have hlt2 : l.length / 2 < (sortQ l).length := by
      rw [hlen]; exact Nat.div_lt_self hpos (by norm_num)
    rw [List.get?_eq_get hlt1, List.get?_eq_get hlt2]
    simp

/-! ## Imputer lemmas -/

theorem GroupImputer.get_imputeStep_ne (st : GroupImputerState) (g : Cell)
    (r : Row) (c c' : String) (h : c' ≠ c) :
    (GroupImputer.imputeStep st g r c).get c' = r.get c' := by
  unfold GroupImputer.imputeStep
  cases r.get c with
  | missing =>
      cases GroupImputer.statFor st g c with
      | some q => exact Row.get_set_ne r c c' (Cell.num q) h
      | none => rfl
  | num q => rfl
  | str s => rfl

theorem GroupImputer.get_foldl_of_not_mem (st : GroupImputerState) (g : Cell)
    (l : List String) (c : String) (h : c ∉ l) :
    ∀ r : Row, (l.foldl (GroupImputer.imputeStep st g) r).get c = r.get c := by
  induction l with
  | nil => intro r; rfl
  | cons c' t ih =>
      intro r
      have hc' : c ≠ c' := fun hc => h (hc ▸ List.mem_cons_self c' t)
      have ht : c ∉ t := fun hc => h (List.mem_cons_of_mem _ hc)
      simp only [List.foldl_cons]
      rw [ih ht, GroupImputer.get_imputeStep_ne st g r c' c hc']

theorem GroupImputer.get_foldl_of_mem (st : GroupImputerState) (g : Cell)
    (l : List String) (c : String) (hc : c ∈ l) (hl : l.Nodup) :
    ∀ r : Row, (l.foldl (GroupImputer.imputeStep st g) r).get c =
      if r.get c = Cell.missing then
        (match GroupImputer.statFor st g c with
         | some q => Cell.num q
         | none => Cell.missing)
      else r.get c := by
  induction l with
  | nil => cases hc
  | cons c' t ih =>
      intro r
      rcases List.mem_cons.1 hc with hcc | hct
      · subst hcc
        have hnt : c ∉ t := (List.nodup_cons.1 hl).1
        simp only [List.foldl_cons]
        rw [GroupImputer.get_foldl_of_not_mem st g t c hnt]
        unfold GroupImputer.imputeStep
        by_cases hmiss : r.get c = Cell.missing
        · rw [hmiss]
          cases GroupImputer.statFor st g c with
          | some q => simp [Row.get_set_self]
          | none => simpa using hmiss
        · rw [if_neg hmiss]
          cases hrc : r.get c with
          | missing => exact absurd hrc hmiss
          | num q => exact hrc
          | str s => exact hrc
      · have hcc' : c ≠ c' := by
          rintro rfl
          exact (List.nodup_cons.1 hl).1 hct
        simp only [List.foldl_cons]
        rw [ih hct (List.nodup_cons.1 hl).2 (GroupImputer.imputeStep st g r c'),
          GroupImputer.get_imputeStep_ne st g r c' c hcc']

theorem GroupImputer.statFor_fitState (cols : List String) (f : Frame)
    (c : String) (hc : c ∈ cols) (g : Cell) :
    GroupImputer.statFor (GroupImputer.fitState cols f) g c =
      match median (colNums (groupRows f g) c) with
      | some q => some q
      | none => median (colNums f.rows c) := by
  unfold GroupImputer.statFor GroupImputer.fitState
  simp only
  rw [alookup_map_self, alookup_map_self]
  by_cases hg : g ∈ groupKeys f
  · rw [if_pos hg]
    simp only [Option.some_bind]
    rw [alookup_map_self, if_pos hc]
    cases hm : median (colNums (groupRows f g) c) with
    | some q => simp [hm]
    | none => simp [hm, if_pos hc]
  · rw [if_neg hg]
    have hempty : groupRows f g = [] := by
      apply List.filter_eq_nil_iff.2
      intro r hr
      simp only [decide_eq_true_eq]
      intro hrg
      exact hg (by
        unfold groupKeys
        rw [List.mem_dedup]
        exact List.mem_map.2 ⟨r, hr, hrg⟩)
    rw [hempty]
    simp [colNums, median, sortQ, if_pos hc]

/-! ## Frame and stage lemmas -/

theorem setCol_rows_get? (f : Frame) (c : String) (g : Row → Cell) (i : ℕ) :
    (setCol f c g).rows.get? i = (f.rows.get? i).map (fun r => r.set c (g r)) := by
  simp [setCol, List.get?_map]

theorem setCol_mem_self (f : Frame) (c : String) (g : Row → Cell) :
    c ∈ (setCol f c g).cols := by
  unfold setCol
  by_cases h : c ∈ f.cols
  · simp only [h, if_true]
  · simp [h]

theorem setCol_mem_of_mem (f : Frame) (c d : String) (g : Row → Cell)
    (h : d ∈ f.cols) : d ∈ (setCol f c g).cols := by
  unfold setCol
  by_cases hc : c ∈ f.cols
  · simpa [hc] using h
  · simp only [hc, if_false]
    exact List.mem_append_left _ h

theorem dropColumns_ok (dc : List String) (f g : Frame)
    (h : dropColumns dc f = Except.ok g) :
    g.cols = f.cols.filter (fun c => decide (c ∉ dc)) ∧
      g.rows = f.rows.map (fun r => r.dropKeys dc) ∧
      ∀ c ∈ dc, c ∈ f.cols := by
  unfold dropColumns at h
  split at h
  · rename_i hall
    cases h
    exact ⟨rfl, rfl, hall⟩
  · cases h

/-- Unfolding of `pipelineApply` as the explicit stage composition. -/
theorem pipelineApply_eq (st : PipelineState) (f : Frame) :
    pipelineApply st f =
      match dropColumns drop_cols (preEncodeFrame st.imputer f) with
      | Except.ok f7 => Except.ok (encApply st.encoder f7)
      | Except.error e => Except.error e := by
  cases hd : dropColumns drop_cols (preEncodeFrame st.imputer f) with
  | ok f7 =>
      simp only [pipelineApply, stages, runStages, preEncodeFrame, derivedFrame] at hd ⊢
      rw [hd]
  | error e =>
      simp only [pipelineApply, stages, runStages, preEncodeFrame, derivedFrame] at hd ⊢
      rw [hd]

theorem pipelineApply_ok_cols (st : PipelineState) (f out : Frame)
    (h : pipelineApply st f = Except.ok out) :
    out.cols = featNames st.encoder.vocab ++ st.encoder.passCols := by
  rw [pipelineApply_eq] at h
  cases hd : dropColumns drop_cols (preEncodeFrame st.imputer f) with
  | ok f7 =>
      rw [hd] at h
      cases h
      rfl
  | error e =>
      rw [hd] at h
      cases h

theorem pipelineFit_ok (f : Frame) (st : PipelineState)
    (h : pipelineFit f = Except.ok st) :
    ∃ f7, dropColumns drop_cols (preEncodeFrame (fitImputer f) f) = Except.ok f7 ∧
      st = { imputer := fitImputer f, encoder := encFit categorical_cols f7 } := by
  unfold pipelineFit at h
  cases hd : dropColumns drop_cols (preEncodeFrame (fitImputer f) f) with
  | ok f7 =>
      rw [hd] at h
      cases h
      exact ⟨f7, rfl, rfl⟩
  | error e =>
      rw [hd] at h
      cases h

/-! ## Indicator-name disjointness -/

theorem data_append (a b : String) : (a ++ b).data = a.data ++ b.data := by
  cases a
  cases b
  rfl

/-- A column name whose characters do not start with `c' ++ "_"` is not an
indicator name built from column `c'`. -/
theorem ne_featName (c' : String) (v : Cell) (target : String)
    (h : target.data.take (c'.data.length + 1) ≠ c'.data ++ ['_']) :
    target ≠ featName c' v := by
  intro heq
  apply h
  have hdata : target.data = (c'.data ++ ['_']) ++ (Cell.catName v).data := by
    rw [heq]
    unfold featName
    rw [data_append, data_append]
  have hlen : (c'.data ++ ['_']).length = c'.data.length + 1 := by simp
  rw [hdata, List.take_left' hlen]

theorem mem_indicator_keys (vocab : List (String × List Cell)) (r : Row)
    (p : String × Cell)
    (hp : p ∈ vocab.flatMap (fun q => colIndicators r q.1 q.2)) :
    ∃ c vs v, (c, vs) ∈ vocab ∧ v ∈ vs ∧ p.1 = featName c v := by
  rcases List.mem_flatMap.1 hp with ⟨q, hq, hpq⟩
  rcases List.mem_map.1 hpq with ⟨v, hv, hveq⟩
  exact ⟨q.1, q.2, v, by simpa using hq, hv, by rw [← hveq]⟩

/-- Reading a passthrough column of an encoded row gives the original
cell, provided the column name is no indicator name of the vocabulary. -/
theorem encodeRow_get (st : EncoderState) (r : Row) (c : String)
    (hne : ∀ c' vs v, (c', vs) ∈ st.vocab → v ∈ vs → c ≠ featName c' v)
    (hpass : c ∈ st.passCols) :
    (encodeRow st r).get c = r.get c := by
  unfold encodeRow Row.get
  rw [alookup_append_of_ne]
  · rw [alookup_map_self, if_pos hpass]
    rfl
  · intro p hp
    rcases mem_indicator_keys st.vocab r p hp with ⟨c', vs, v, hcv, hv, hpeq⟩
    rw [hpeq]
    exact fun hfc => (hne c' vs v hcv hv) hfc.symm

@[simp]
theorem GroupImputer.fitState_cols (cols : List String) (f : Frame) :
    (GroupImputer.fitState cols f).cols = cols := rfl

theorem except_ok_of_toOption {ε α : Type} (e : Except ε α) (a : α)
    (h : e.toOption = some a) : e = Except.ok a := by
  cases e with
  | ok b =>
      simp only [Except.toOption, Option.some.injEq] at h
      rw [h]
  | error err => simp [Except.toOption] at h

theorem imputeCols_facts (c : String) (hc : c ∈ imputeCols) :
    c ∉ drop_cols ∧ c ∉ categorical_cols ∧ c ≠ "Dietary Habits" ∧
    c ≠ "Sleep Duration" ∧ c ≠ ratioCol ∧
    (∀ cc ∈ categorical_cols,
      c.data.take (cc.data.length + 1) ≠ cc.data ++ ['_']) := by
  fin_cases hc <;>
    exact ⟨by decide, by decide, by decide, by decide, by decide, by decide⟩

theorem imputeRow_fit_not_missing (f : Frame) (c : String) (hc : c ∈ imputeCols)
    (hvals : colNums (derivedFrame f).rows c ≠ []) (r2 : Row) :
    (GroupImputer.imputeRow (fitImputer f) r2).get c ≠ Cell.missing := by
  unfold GroupImputer.imputeRow
  rw [show (fitImputer f).cols = imputeCols from rfl,
    GroupImputer.get_foldl_of_mem (fitImputer f) (r2.get statusCol) imputeCols c
      hc (by decide) r2]
  by_cases hm : r2.get c = Cell.missing
  · rw [if_pos hm]
    unfold fitImputer
    rw [GroupImputer.statFor_fitState imputeCols (derivedFrame f) c hc]
    cases hg : median (colNums (groupRows (derivedFrame f) (r2.get statusCol)) c) with
    | some q => simp
    | none =>
        obtain ⟨q, hq⟩ := Option.isSome_iff_exists.1 (median_isSome _ hvals)
        rw [hq]
        simp
  · rw [if_neg hm]
    exact hm

/-! ## Claim theorems -/

/-- Claim C1: for every respondent-status group and every configured
column, `GroupImputer.apply` replaces a missing value of the column in a
row of that group with the median of the group's non-missing values
computed at fit time; when the group was unseen at fit time or had no
valid values, the replacement is the column-wide fallback median computed
at fit time (here `fb`, the fallback median, exists by hypothesis, and
`Option.getD` selects the group median when it exists and `fb` otherwise). -/
theorem claim1_group_median_imputation (train f : Frame) (c : String)
    (hc : c ∈ imputeCols) (i : ℕ) (r : Row) (hr : f.rows.get? i = some r)
    (hmiss : r.get c = Cell.missing) (fb : ℚ)
    (hfb : median (colNums train.rows c) = some fb) :
    ∃ r', (GroupImputer.applyState (GroupImputer.fitState imputeCols train) f).rows.get? i
        = some r' ∧
      r'.get c =
        Cell.num ((median (colNums (groupRows train (r.get statusCol)) c)).getD fb) := by
  refine ⟨GroupImputer.imputeRow (GroupImputer.fitState imputeCols train) r, ?_, ?_⟩
  · have hrows : (GroupImputer.applyState (GroupImputer.fitState imputeCols train) f).rows
        = f.rows.map (GroupImputer.imputeRow (GroupImputer.fitState imputeCols train)) := rfl
    rw [hrows, List.get?_map, hr]
    rfl
  · unfold GroupImputer.imputeRow
    rw [GroupImputer.fitState_cols,
      GroupImputer.get_foldl_of_mem _ _ _ c hc (by decide) r, hmiss, if_pos rfl,
      GroupImputer.statFor_fitState imputeCols train c hc (r.get statusCol)]
    cases hm : median (colNums (groupRows train (r.get statusCol)) c) with
    | some q => simp [hm]
    | none => simp [hm, hfb]

/-- Witness for C1: the missing Pressure of a Student row is filled with
the Student group's fit-time median 3. -/
theorem claim1_witness :
    ("Pressure" ∈ imputeCols) ∧
    (w1apply.rows.get? 0 = some w1row) ∧
    (w1row.get "Pressure" = Cell.missing) ∧
    (median (colNums w1train.rows "Pressure") = some 3) ∧
    ((median (colNums (groupRows w1train (w1row.get statusCol)) "Pressure")).getD 3 = 3) ∧
    (∃ r', (GroupImputer.applyState (GroupImputer.fitState imputeCols w1train) w1apply).rows.get? 0
        = some r' ∧
      r'.get "Pressure" =
        Cell.num ((median (colNums (groupRows w1train (w1row.get statusCol)) "Pressure")).getD 3)) :=
  ⟨by decide, by decide, by decide, by decide, by decide,
   claim1_group_median_imputation w1train w1apply "Pressure" (by decide) 0 w1row
     (by decide) (by decide) 3 (by decide)⟩

/-- Amended C2: for every training dataset on which the pipeline's fit
succeeds, applying the fitted pipeline to that same dataset yields no
missing value in any configured imputed column, provided the column exists
after the derive stages and carries at least one non-missing value at fit
time (without the latter hypothesis the claim fails: an entirely missing
column has no fallback median and stays missing, see the counterexample). -/
theorem claim2_amended_no_missing (f : Frame) (st : PipelineState)
    (hfit : pipelineFit f = Except.ok st) (c : String) (hc : c ∈ imputeCols)
    (hcol : c ∈ (derivedFrame f).cols)
    (hvals : colNums (derivedFrame f).rows c ≠ [])
    (out : Frame) (happ : pipelineApply st f = Except.ok out)
    (i : ℕ) (r : Row) (hr : out.rows.get? i = some r) :
    r.get c ≠ Cell.missing := by
  obtain ⟨hdropn, hcatn, hdietn, hsleepn, hration, hprefn⟩ := imputeCols_facts c hc
  rcases pipelineFit_ok f st hfit with ⟨f7, hdrop, hst⟩
  subst hst
  rw [pipelineApply_eq] at happ
  rw [show ({ imputer := fitImputer f, encoder := encFit categorical_cols f7 }
      : PipelineState).imputer = fitImputer f from rfl, hdrop] at happ
  have hout : out = encApply (encFit categorical_cols f7) f7 := by
    injection happ with h
    exact h.symm
  subst hout
  obtain ⟨hcols7, hrows7, -⟩ := dropColumns_ok _ _ _ hdrop
  rw [show (encApply (encFit categorical_cols f7) f7).rows
      = f7.rows.map (encodeRow (encFit categorical_cols f7)) from rfl,
    List.get?_map] at hr
  obtain ⟨r7, hr7, hre⟩ := Option.map_eq_some'.1 hr
  rw [hrows7, List.get?_map] at hr7
  obtain ⟨r6, hr6, hr6eq⟩ := Option.map_eq_some'.1 hr7
  rw [show (preEncodeFrame (fitImputer f) f).rows
      = (replace_diet_habits (add_pressure_ratio
          (GroupImputer.applyState (fitImputer f) (derivedFrame f)))).rows.map
            (fun r5 => r5.set "Sleep Duration"
              (normalizeCell sleepTable "Other" (r5.get "Sleep Duration"))) from rfl,
    List.get?_map] at hr6
  obtain ⟨r5, hr5, h5⟩ := Option.map_eq_some'.1 hr6
  rw [show (replace_diet_habits (add_pressure_ratio
        (GroupImputer.applyState (fitImputer f) (derivedFrame f)))).rows
      = (add_pressure_ratio
          (GroupImputer.applyState (fitImputer f) (derivedFrame f))).rows.map
            (fun r4 => r4.set "Dietary Habits"
              (normalizeCell dietTable "Other" (r4.get "Dietary Habits"))) from rfl,
    List.get?_map] at hr5
  obtain ⟨r4, hr4, h4⟩ := Option.map_eq_some'.1 hr5
  rw [show (add_pressure_ratio
        (GroupImputer.applyState (fitImputer f) (derivedFrame f))).rows
      = (GroupImputer.applyState (fitImputer f) (derivedFrame f)).rows.map
          (fun r3 => r3.set ratioCol (ratioCell r3)) from rfl,
    List.get?_map] at hr4
  obtain ⟨r3, hr3, h3⟩ := Option.map_eq_some'.1 hr4
  rw [show (GroupImputer.applyState (fitImputer f) (derivedFrame f)).rows
      = (derivedFrame f).rows.map (GroupImputer.imputeRow (fitImputer f)) from rfl,
    List.get?_map] at hr3
  obtain ⟨r2, hr2, h2⟩ := Option.map_eq_some'.1 hr3
  have hval3 : r3.get c ≠ Cell.missing := by
    rw [← h2]
    exact imputeRow_fit_not_missing f c hc hvals r2
  have hval4 : r4.get c = r3.get c := by
    rw [← h3]
    exact Row.get_set_ne r3 ratioCol c _ hration
  have hval5 : r5.get c = r4.get c := by
    rw [← h4]
    exact Row.get_set_ne r4 "Dietary Habits" c _ hdietn
  have hval6 : r6.get c = r5.get c := by
    rw [← h5]
    exact Row.get_set_ne r5 "Sleep Duration" c _ hsleepn
  have hval7 : r7.get c = r6.get c := by
    rw [← hr6eq]
    exact Row.get_dropKeys_of_not_mem r6 drop_cols c hdropn
  have hvalr : r.get c = r7.get c := by
    rw [← hre]
    apply encodeRow_get
    · intro c' vs v hcv hv
      rcases List.mem_map.1 hcv with ⟨cc, hccmem, hcceq⟩
      have hc'cc : cc = c' := by
        have := congrArg Prod.fst hcceq
        simpa using this
      exact ne_featName c' v c (by rw [← hc'cc]; exact hprefn cc hccmem)
    · show c ∈ (encFit categorical_cols f7).passCols
      have hc7 : c ∈ f7.cols := by
        rw [hcols7]
        refine List.mem_filter.2 ⟨?_, by simpa using hdropn⟩
        show c ∈ (preEncodeFrame (fitImputer f) f).cols
        unfold preEncodeFrame replace_sleep_duration replace_diet_habits
          add_pressure_ratio
        apply setCol_mem_of_mem
        apply setCol_mem_of_mem
        apply setCol_mem_of_mem
        exact hcol
      exact List.mem_filter.2 ⟨hc7, by simpa using hcatn⟩
  rw [hvalr, hval7, hval6, hval5, hval4]
  exact hval3

/-- Counterexample for C2 as stated: on a training dataset whose
"Financial Stress" column is entirely missing, fit followed by apply on
the same dataset succeeds yet leaves that configured imputed column
missing in the output — there is no fallback median to impute with. -/
theorem claim2_counterexample :
    ((pipelineFit cf).bind (fun st => pipelineApply st cf)).toOption.map
        (fun out => (out.rows.getD 0 []).get "Financial Stress")
      = some Cell.missing := by decide

/-- Witness for the amended C2: on the witness training frame (one row
with missing Pressure, three rows carrying values), fit + apply on the
same data leaves no missing Pressure. -/
theorem claim2_amended_witness :
    (pipelineFit wtrain = Except.ok wstate) ∧
    ("Pressure" ∈ imputeCols) ∧
    ("Pressure" ∈ (derivedFrame wtrain).cols) ∧
    (colNums (derivedFrame wtrain).rows "Pressure" ≠ []) ∧
    (pipelineApply wstate wtrain = Except.ok wout1) ∧
    (wout1.rows.get? 1 = some w2row) ∧
    (w2row.get "Pressure" ≠ Cell.missing) := by
  have hfit : pipelineFit wtrain = Except.ok wstate :=
    except_ok_of_toOption _ _ (by decide)
  have happ : pipelineApply wstate wtrain = Except.ok wout1 :=
    except_ok_of_toOption _ _ (by decide)
  refine ⟨hfit, by decide, by decide, by decide, happ, by decide, ?_⟩
  exact claim2_amended_no_missing wtrain wstate hfit "Pressure" (by decide)
    (by decide) (by decide) wout1 happ 1 w2row (by decide)

/-- Claim C3: repeated `apply` calls (train, validation, test) thread the
pipeline state explicitly, and every call is computed with the state
frozen at fit time, which is also handed on unchanged: `apply` never
mutates the learned statistics. -/
theorem claim3_frozen_state (st : PipelineState) (fs : List Frame) :
    applySeq st fs = (fs.map (fun f => pipelineApply st f), st) := by
  induction fs with
  | nil => rfl
  | cons f fs ih => simp [applySeq, ih]

/-- Claim C4: a row whose value in an encoded column is absent from the
vocabulary learned at fit time yields all-zero indicator cells for that
column, the indicator block still appears in the encoded row (no failure),
and the output schema is exactly the frozen one (no new column). -/
theorem claim4_unknown_category (st : EncoderState) (f : Frame) (i : ℕ)
    (r : Row) (hr : f.rows.get? i = some r) (c : String) (vs : List Cell)
    (hcv : (c, vs) ∈ st.vocab) (hunk : r.get c ∉ vs) :
    ∃ r', (encApply st f).rows.get? i = some r' ∧
      colIndicators r c vs = vs.map (fun v => (featName c v, Cell.num 0)) ∧
      (∃ l₁ l₂, r' = l₁ ++ colIndicators r c vs ++ l₂) ∧
      (encApply st f).cols = featNames st.vocab ++ st.passCols := by
  refine ⟨encodeRow st r, ?_, ?_, ?_, rfl⟩
  · have hrows : (encApply st f).rows = f.rows.map (encodeRow st) := rfl
    rw [hrows, List.get?_map, hr]
    rfl
  · unfold colIndicators
    apply List.map_congr_left
    intro v hv
    have hne : r.get c ≠ v := fun h => hunk (h ▸ hv)
    simp [hne]
  · rcases List.append_of_mem hcv with ⟨s, t, hst⟩
    refine ⟨s.flatMap (fun p => colIndicators r p.1 p.2),
      t.flatMap (fun p => colIndicators r p.1 p.2) ++
        st.passCols.map (fun c2 => (c2, r.get c2)), ?_⟩
    unfold encodeRow
    rw [hst, List.flatMap_append, List.flatMap_cons]
    simp [List.append_assoc]

/-- Witness for C4: the unseen Gender value "Nonbinary" yields all-zero
Gender indicators while the schema stays the frozen one. -/
theorem claim4_witness :
    (w4test.rows.get? 0 = some w4row) ∧
    (("Gender", [Cell.str "Male", Cell.str "Female"]) ∈ w4enc.vocab) ∧
    (w4row.get "Gender" ∉ [Cell.str "Male", Cell.str "Female"]) ∧
    (∃ r', (encApply w4enc w4test).rows.get? 0 = some r' ∧
      colIndicators w4row "Gender" [Cell.str "Male", Cell.str "Female"]
        = [Cell.str "Male", Cell.str "Female"].map
            (fun v => (featName "Gender" v, Cell.num 0)) ∧
      (∃ l₁ l₂, r' = l₁ ++
        colIndicators w4row "Gender" [Cell.str "Male", Cell.str "Female"] ++ l₂) ∧
      (encApply w4enc w4test).cols = featNames w4enc.vocab ++ w4enc.passCols) :=
  ⟨by decide, by decide, by decide,
   claim4_unknown_category w4enc w4test 0 w4row (by decide) "Gender"
     [Cell.str "Male", Cell.str "Female"] (by decide) (by decide)⟩

/-- Claim C5: after one fit, every successful apply call produces the
FeatureSchema frozen at fit time — same column names, order and count —
regardless of which dataset is transformed. -/
theorem claim5_schema_frozen (st : PipelineState) (d₁ d₂ out₁ out₂ : Frame)
    (h₁ : pipelineApply st d₁ = Except.ok out₁)
    (h₂ : pipelineApply st d₂ = Except.ok out₂) :
    out₁.cols = featNames st.encoder.vocab ++ st.encoder.passCols ∧
    out₂.cols = featNames st.encoder.vocab ++ st.encoder.passCols ∧
    out₁.cols = out₂.cols := by
  have e₁ := pipelineApply_ok_cols st d₁ out₁ h₁
  have e₂ := pipelineApply_ok_cols st d₂ out₂ h₂
  exact ⟨e₁, e₂, e₁.trans e₂.symm⟩

/-- Witness for C5: applying the fitted pipeline to the training frame and
to a different test frame yields identical output schemas. -/
theorem claim5_witness :
    (pipelineApply wstate wtrain = Except.ok wout1) ∧
    (pipelineApply wstate wtest = Except.ok wout2) ∧
    (wout1.cols = featNames wstate.encoder.vocab ++ wstate.encoder.passCols ∧
     wout2.cols = featNames wstate.encoder.vocab ++ wstate.encoder.passCols ∧
     wout1.cols = wout2.cols) := by
  have h₁ : pipelineApply wstate wtrain = Except.ok wout1 :=
    except_ok_of_toOption _ _ (by decide)
  have h₂ : pipelineApply wstate wtest = Except.ok wout2 :=
    except_ok_of_toOption _ _ (by decide)
  exact ⟨h₁, h₂, claim5_schema_frozen wstate wtrain wtest wout1 wout2 h₁ h₂⟩

/-- Counterexample for C6: the claimed order starts with a normalize stage
before the derive stages, but the pipeline's first stage is the Pressure
derivation, and no normalization stage occurs among the first four stages
(derive, derive, impute, ratio) — normalization only happens after the
ratio feature. -/
theorem claim6_counterexample :
    ((stages emptyPipelineState).map Prod.fst).getD 0 "" = "pressure" ∧
    "pressure" ∈ deriveStepNames ∧
    (∀ s ∈ ((stages emptyPipelineState).map Prod.fst).take 4,
      s ∉ normalizeStepNames) := by
  refine ⟨rfl, by decide, by decide⟩

/-- Amended C6: the pipeline applies its stages in the fixed order derive
Pressure, derive Satisfaction, impute, derive ratio, normalize diet,
normalize sleep, drop, encode — with no normalization stage before the
derive stages — and imputation runs before the ratio feature is derived. -/
theorem claim6_amended_order (st : PipelineState) :
    (stages st).map Prod.fst
      = ["pressure", "satisfaction", "impute", "pressure_ratio",
         "diet_clean", "sleep_clean", "drop_cols", "encode"] ∧
    ((stages st).map Prod.fst).indexOf "impute"
      < ((stages st).map Prod.fst).indexOf "pressure_ratio" := by
  have h : (stages st).map Prod.fst
      = ["pressure", "satisfaction", "impute", "pressure_ratio",
         "diet_clean", "sleep_clean", "drop_cols", "encode"] := rfl
  rw [h]
  exact ⟨rfl, by decide⟩

/-- Claim C7: `add_pressure_ratio` computes Pressure divided by
Satisfaction for every row; when Satisfaction is 0 the result is the
sentinel 0 instead of an error, and the result is always a (finite)
rational cell — no NaN or infinity can arise. -/
theorem claim7_ratio_total (f : Frame) (i : ℕ) (r : Row)
    (hr : f.rows.get? i = some r) (p s : ℚ)
    (hp : r.get "Pressure" = Cell.num p) (hs : r.get "Satisfaction" = Cell.num s) :
    ∃ r', (add_pressure_ratio f).rows.get? i = some r' ∧
      r'.get ratioCol = Cell.num (if s = 0 then 0 else p / s) := by
  refine ⟨r.set ratioCol (ratioCell r), ?_, ?_⟩
  · rw [add_pressure_ratio, setCol_rows_get?, hr]
    rfl
  · rw [Row.get_set_self]
    unfold ratioCell
    rw [hp, hs]

/-- Witness for C7: Pressure 6 / Satisfaction 3 gives ratio 2; the
zero-Satisfaction row gets the sentinel 0. -/
theorem claim7_witness :
    (w7.rows.get? 0 = some w7row0) ∧
    (w7row0.get "Pressure" = Cell.num 6) ∧
    (w7row0.get "Satisfaction" = Cell.num 3) ∧
    (∃ r', (add_pressure_ratio w7).rows.get? 0 = some r' ∧
      r'.get ratioCol = Cell.num 2) ∧
    (w7.rows.get? 1 = some w7row1) ∧
    (w7row1.get "Satisfaction" = Cell.num 0) ∧
    (∃ r', (add_pressure_ratio w7).rows.get? 1 = some r' ∧
      r'.get ratioCol = Cell.num 0) := by
  refine ⟨by decide, by decide, by decide, ?_, by decide, by decide, ?_⟩
  · obtain ⟨r', h1, h2⟩ :=
      claim7_ratio_total w7 0 w7row0 (by decide) 6 3 (by decide) (by decide)
    have hval : (if (3 : ℚ) = 0 then (0 : ℚ) else 6 / 3) = 2 := by norm_num
    exact ⟨r', h1, by rw [h2, hval]⟩
  · obtain ⟨r', h1, h2⟩ :=
      claim7_ratio_total w7 1 w7row1 (by decide) 5 0 (by decide) (by decide)
    have hval : (if (0 : ℚ) = 0 then (0 : ℚ) else 5 / 0) = 0 := by norm_num
    exact ⟨r', h1, by rw [h2, hval]⟩

/-- Claim C8: applying a `GroupImputer` that was never fitted signals the
"uninitialized imputer" failure for every dataset — it never silently
produces output. -/
theorem claim8_unfitted_apply_fails (cols : List String) (f : Frame) :
    GroupImputerT.transform (GroupImputerT.make cols) f
      = Except.error "uninitialized imputer" := rfl

/-- Claim C9: dropping the notebook's `drop_cols` on a frame missing one
of those columns reports the schema-mismatch failure, never a silent
no-op. -/
theorem claim9_drop_missing_column_fails (f : Frame) (c : String)
    (hc : c ∈ drop_cols) (habs : c ∉ f.cols) :
    dropColumns drop_cols f
      = Except.error "schema mismatch: column to drop not found" := by
  unfold dropColumns
  rw [if_neg]
  intro hall
  exact habs (hall c hc)

/-- Witness for C9: dropping on a frame without "Profession" fails. -/
theorem claim9_witness :
    ("Profession" ∈ drop_cols) ∧ ("Profession" ∉ w9.cols) ∧
    dropColumns drop_cols w9
      = Except.error "schema mismatch: column to drop not found" :=
  ⟨by decide, by decide,
   claim9_drop_missing_column_fails w9 "Profession" (by decide) (by decide)⟩

/-- Claim C10: the notebook pops the Depression label off the training
frame before the pipeline is fit, so the label column is neither in the
training schema nor among the output feature names `all_features`,
whatever vocabulary the encoder learned. -/
theorem claim10_label_excluded (raw : Frame) (hn : raw.cols.Nodup) (f7 : Frame) :
    "Depression" ∉ (popColumn raw "Depression").1.cols ∧
    "Depression" ∉ allFeatures (encFit categorical_cols f7).vocab
        (popColumn raw "Depression").1.cols := by
  have h1 : "Depression" ∉ raw.cols.erase "Depression" := by
    intro hmem
    exact ((List.Nodup.mem_erase_iff hn).1 hmem).1 rfl
  refine ⟨h1, ?_⟩
  intro hmem
  unfold allFeatures at hmem
  rcases List.mem_append.1 hmem with hmem' | hlast
  · rcases List.mem_append.1 hmem' with hfeat | hfil
    · rcases List.mem_flatMap.1 hfeat with ⟨p, hp, hname⟩
      rcases List.mem_map.1 hname with ⟨v, _, hveq⟩
      rcases List.mem_map.1 hp with ⟨c', hc', hcceq⟩
      have hp1 : p.1 = c' := by rw [← hcceq]
      have hpref : ∀ cc ∈ categorical_cols,
          ("Depression" : String).data.take (cc.data.length + 1)
            ≠ cc.data ++ ['_'] := by decide
      exact ne_featName p.1 v "Depression"
        (by rw [hp1]; exact hpref c' hc') hveq.symm
    · exact h1 (List.mem_of_mem_filter hfil)
  · simp at hlast

/-- Witness for C10: popping Depression removes it from the training
schema and it never appears among the output feature names. -/
theorem claim10_witness :
    w10raw.cols.Nodup ∧
    ("Depression" ∉ (popColumn w10raw "Depression").1.cols ∧
     "Depression" ∉ allFeatures (encFit categorical_cols w4train).vocab
        (popColumn w10raw "Depression").1.cols) :=
  ⟨by decide, claim10_label_excluded w10raw (by decide) w4train⟩

end MentalHealth
